import Mathlib

/-!
Verification of the `dumpster` repository's `OptGc` wrapper
(`src/dumpster/src/option.rs`) and `Trace` derive
(`src/dumpster_derive/src/lib.rs`) against the natural-language
specification.

The `OptGc` operations are translated directly from `option.rs`.
The underlying `Gc` pointer type is not part of the given sources
(only its callers are), so its operations are modelled from the
specification's description of handles (spec sections 3 and 4.3).
-/

namespace Dumpster

/-- Modelled from the spec: a handle is either *live* (refers to an
allocation, identified by its address, and carries the fat-pointer
metadata) or *dead* (a sentinel that refers to no allocation and carries
only the type metadata needed for unsized payload types). The metadata
type `μ` is `Unit` for sized payload types. -/
inductive Gc (μ : Type) where
  | live (addr : Nat) (meta : μ)
  | dead (meta : μ)

/-- Modelled from the spec: the "zero-cost test for is-this-handle-dead"
exposed by the pointer type (`Gc::is_dead`). -/
def Gc.is_dead {μ : Type} : Gc μ → Bool
  | .live _ _ => false
  | .dead _ => true

/-- Modelled from the spec: the constant dead value for sized payload
types (`Gc::DEAD`); a sized type needs no metadata. -/
def Gc.DEAD : Gc Unit := .dead ()

/-- Modelled from the spec: "Two handles are pointer-equal iff both are
dead (treated as equal regardless of metadata) or both reference the same
live allocation address" (`Gc::ptr_eq`). -/
def Gc.ptr_eq {μ : Type} : Gc μ → Gc μ → Bool
  | .dead _, .dead _ => true
  | .live a _, .live b _ => a == b
  | _, _ => false

/-- The strong counts of the heap, by allocation address. -/
def Heap : Type := Nat → Nat

/-- Modelled from the spec: "`ref_count()` returns the current
`strong_count`, or zero for a dead handle" (`Gc::ref_count`; `OptGc`
only ever calls it on a live handle). -/
def Gc.ref_count {μ : Type} (strong : Heap) : Gc μ → Nat
  | .live a _ => strong a
  | .dead _ => 0

/-- Allocator state: the strong counts plus the next fresh address. -/
structure AllocState where
  strong : Heap
  next : Nat

/-- Modelled from the spec: "creating a pointer allocates a record with
count 1" (`Gc::new`); each construction uses a fresh address. -/
def Gc.new {μ : Type} (st : AllocState) (m : μ) : Gc μ × AllocState :=
  (.live st.next m, ⟨fun a => if a = st.next then 1 else st.strong a, st.next + 1⟩)

/-- Modelled from the spec: "Cloning a live handle increments
`strong_count` and yields an equal-identity handle"; cloning a dead
handle yields no handle (`Gc::try_clone` returns `None` for a dead
handle, which `OptGc`'s `From<Option<Gc<T>>>` turns back into `NONE`). -/
def Gc.try_clone {μ : Type} (strong : Heap) : Gc μ → Option (Gc μ) × Heap
  | .live a m => (some (.live a m), fun b => if b = a then strong b + 1 else strong b)
  | .dead _ => (none, strong)

/-- `OptGc<T>`: a newtype over `Gc<T>` (option.rs line 22); a dead inner
`Gc` is interpreted as none. -/
structure OptGc (μ : Type) where
  gc : Gc μ

/-- `OptGc::NONE` (option.rs line 39): `Self(Gc::<T>::DEAD)`, available
only for sized payload types (metadata `Unit`). -/
def OptGc.NONE : OptGc Unit := ⟨Gc.DEAD⟩

/-- `OptGc::is_some` (option.rs lines 45-47): `!self.0.is_dead()`. -/
def OptGc.is_some {μ : Type} (x : OptGc μ) : Bool := !x.gc.is_dead

/-- `OptGc::is_none` (option.rs lines 51-53): `self.0.is_dead()`. -/
def OptGc.is_none {μ : Type} (x : OptGc μ) : Bool := x.gc.is_dead

/-- `OptGc::some` (option.rs lines 68-70): `Self(gc)`. -/
def OptGc.some {μ : Type} (g : Gc μ) : OptGc μ := ⟨g⟩

/-- `OptGc::as_ref` (option.rs lines 90-96): `None` if the inner `Gc` is
dead, otherwise `Some` of it. -/
def OptGc.as_ref {μ : Type} (x : OptGc μ) : Option (Gc μ) :=
  if x.gc.is_dead then Option.none else Option.some x.gc

/-- `OptGc::into_option` (option.rs lines 145-151). -/
def OptGc.into_option {μ : Type} (x : OptGc μ) : Option (Gc μ) :=
  if x.gc.is_dead then Option.none else Option.some x.gc

/-- `OptGc::into_maybe_dead_gc` (option.rs lines 157-159): `self.0`. -/
def OptGc.into_maybe_dead_gc {μ : Type} (x : OptGc μ) : Gc μ := x.gc

/-- `OptGc::from_maybe_dead_gc` (option.rs lines 165-167): `Self(gc)`. -/
def OptGc.from_maybe_dead_gc {μ : Type} (g : Gc μ) : OptGc μ := ⟨g⟩

/-- `OptGc::ptr_eq` (option.rs lines 190-192): `Gc::ptr_eq(&self.0, &other.0)`. -/
def OptGc.ptr_eq {μ : Type} (x y : OptGc μ) : Bool := Gc.ptr_eq x.gc y.gc

/-- `OptGc::ref_count` (option.rs lines 217-222): match on `as_ref`,
`Gc::ref_count` for `Some`, `0` for `None`. -/
def OptGc.ref_count {μ : Type} (strong : Heap) (x : OptGc μ) : Nat :=
  match x.as_ref with
  | Option.some gc => Gc.ref_count strong gc
  | Option.none => 0

/-- `TraceWith::accept` for `OptGc` (option.rs lines 232-238): if
`as_ref` is `Some(gc)` the visitor visits `gc` (its state `v` is
updated), otherwise nothing happens; `Ok(())` is returned either way. -/
def OptGc.accept {μ V : Type} (visit : Gc μ → V → V) (x : OptGc μ) (v : V) :
    Except Unit Unit × V :=
  match x.as_ref with
  | Option.some gc => (Except.ok (), visit gc v)
  | Option.none => (Except.ok (), v)

/-- `From<Option<Gc<T>>> for OptGc<T>` (option.rs lines 253-260),
available for sized payload types only. -/
def OptGc.fromOption : Option (Gc Unit) → OptGc Unit
  | Option.some g => ⟨g⟩
  | Option.none => OptGc.NONE

/-- `Clone for OptGc` (option.rs lines 241-245):
`Gc::try_clone(&self.0).into()`. -/
def OptGc.clone (strong : Heap) (x : OptGc Unit) : OptGc Unit × Heap :=
  match Gc.try_clone strong x.gc with
  | (o, strong') => (OptGc.fromOption o, strong')

/-- `Default for OptGc` (option.rs lines 247-251): `Self::NONE`. -/
def OptGc.default : OptGc Unit := OptGc.NONE

/-!
Model of the `Trace` derive (`src/dumpster_derive/src/lib.rs`).

A `#[dumpster(...)]` attribute is a list of nested meta items; an item is
a bare path (`ignore`), a name-value pair (`crate = ::foo`), or a nested
list (`trace(ignore)`). `syn`'s streaming `parse_nested_meta` is embedded
as recursive functions that thread the mutable flags of the Rust closures
and stop at the first error of one attribute, keeping the flag updates
made before the error, exactly as the captured `&mut` variables do.
-/

/-- A nested meta item inside a `#[dumpster(...)]` attribute. -/
inductive NestedMeta where
  | path (name : String)
  | nameValue (name : String) (value : String)
  | list (name : String) (args : List NestedMeta)

/-- The head name of a nested meta item (`meta.path`). -/
def NestedMeta.name : NestedMeta → String
  | .path n => n
  | .nameValue n _ => n
  | .list n _ => n

/-- An attribute: its path (`dumpster` or foreign) and nested items. -/
structure Attr where
  path : String
  args : List NestedMeta

/-- The arguments of a `trace(...)` item (lib.rs lines 39-45 and 76-83):
a bare `ignore` sets the flag; any other item is an error (`msg` is the
message of the `else` branch; a non-bare `ignore` sets the flag in the
closure and then fails on the unconsumed tokens). Returns the updated
flag and the first error, if any. -/
def parseTraceArgs (msg : String) : Bool → List NestedMeta → Bool × Option String
  | ign, [] => (ign, Option.none)
  | ign, item :: rest =>
    if item.name = "ignore" then
      match item with
      | .path _ => parseTraceArgs msg true rest
      | _ => (true, Option.some "unexpected token")
    else (ign, Option.some msg)

/-- Container attribute state: the `dumpster` crate path and the
container-level `trace(ignore)` flag (lib.rs lines 25-26). -/
structure ContainerState where
  dumpster : String
  traceIgnoreContainer : Bool

/-- The items of one container `#[dumpster(...)]` attribute (lib.rs lines
34-50): `crate = path` sets the crate path, `trace(...)` recurses into
`parseTraceArgs`, anything else errors. -/
def parseContainerItems : ContainerState → List NestedMeta → ContainerState × Option String
  | st, [] => (st, Option.none)
  | st, item :: rest =>
    if item.name = "crate" then
      match item with
      | .nameValue _ v => parseContainerItems { st with dumpster := v } rest
      | _ => (st, Option.some "expected value")
    else if item.name = "trace" then
      match item with
      | .list _ args =>
        match parseTraceArgs "unsupported trace attribute" st.traceIgnoreContainer args with
        | (ign, Option.none) =>
          parseContainerItems { st with traceIgnoreContainer := ign } rest
        | (ign, Option.some e) => ({ st with traceIgnoreContainer := ign }, Option.some e)
      | _ => (st, Option.some "expected parentheses")
    else (st, Option.some "unsupported attribute")

/-- The container attribute loop (lib.rs lines 29-51): non-`dumpster`
attributes are skipped; the `?` on `parse_nested_meta` returns the first
failing attribute's error immediately. -/
def parseContainerAttrs : ContainerState → List Attr → Except String ContainerState
  | st, [] => .ok st
  | st, a :: rest =>
    if a.path = "dumpster" then
      match parseContainerItems st a.args with
      | (st', Option.none) => parseContainerAttrs st' rest
      | (_, Option.some e) => .error e
    else parseContainerAttrs st rest

/-- `get_or_insert` on the shared field error slot: keeps the first error. -/
def orFirst : Option String → Option String → Option String
  | Option.some e, _ => Option.some e
  | Option.none, o => o

/-- The items of one field `#[dumpster(...)]` attribute (lib.rs lines
74-87): only `trace(...)` is understood; anything else errors. -/
def parseFieldItems : Bool → List NestedMeta → Bool × Option String
  | ign, [] => (ign, Option.none)
  | ign, item :: rest =>
    if item.name = "trace" then
      match item with
      | .list _ args =>
        match parseTraceArgs "unsupported trace attribute argument" ign args with
        | (ign', Option.none) => parseFieldItems ign' rest
        | (ign', Option.some e) => (ign', Option.some e)
      | _ => (ign, Option.some "expected parentheses")
    else (ign, Option.some "unsupported attribute")

/-- The attribute loop of the field filter closure (lib.rs lines 69-92):
non-`dumpster` attributes are skipped; an error is recorded with
`get_or_insert` (first error wins) and the loop continues, so the
`trace_ignore` flag still reflects every attribute. -/
def parseFieldAttrs : Bool → Option String → List Attr → Bool × Option String
  | ign, err, [] => (ign, err)
  | ign, err, a :: rest =>
    if a.path = "dumpster" then
      match parseFieldItems ign a.args with
      | (ign', Option.none) => parseFieldAttrs ign' err rest
      | (ign', Option.some e) => parseFieldAttrs ign' (orFirst err (Option.some e)) rest
    else parseFieldAttrs ign err rest

/-- A field of the deriving type: just its attributes matter here. -/
structure StructField where
  attrs : List Attr

/-- `s.filter` over all fields (lib.rs lines 66-95): returns the keep
mask (`!trace_ignore` per field) and the first field-attribute error
encountered anywhere during filtering. -/
def filterFields : Option String → List StructField → List Bool × Option String
  | err, [] => ([], err)
  | err, f :: rest =>
    match parseFieldAttrs false err f.attrs with
    | (ign, err') =>
      match filterFields err' rest with
      | (mask, err'') => ((!ign) :: mask, err'')

/-- Indices (from `i`) of the `true` entries of a keep mask. -/
def keptIndices : Nat → List Bool → List Nat
  | _, [] => []
  | i, b :: rest =>
    if b then i :: keptIndices (i + 1) rest else keptIndices (i + 1) rest

/-- The input of `derive_trace`: container attributes and fields. -/
structure DeriveInput where
  attrs : List Attr
  fields : List StructField

/-- The generated impl, abstracted: the `dumpster` crate path, the field
indices whose types receive a `TraceWith` bound (`AddBounds::None` gives
none, `AddBounds::Fields` gives the fields surviving the filter), and the
field indices visited by the generated `accept` body, in order. -/
structure GenImpl where
  dumpster : String
  boundFields : List Nat
  bodyFields : List Nat

/-- `derive_trace` (lib.rs lines 24-119): parse container attributes
(first error aborts); with container-level `trace(ignore)` emit an empty
body with no bounds and never look at field attributes; otherwise filter
the fields, return the first recorded field error if any, and emit a body
visiting exactly the kept fields, which also carry the bounds. -/
def derive_trace (s : DeriveInput) : Except String GenImpl :=
  match parseContainerAttrs ⟨"::dumpster", false⟩ s.attrs with
  | .error e => .error e
  | .ok st =>
    if st.traceIgnoreContainer then
      .ok ⟨st.dumpster, [], []⟩
    else
      match filterFields Option.none s.fields with
      | (_, Option.some e) => .error e
      | (mask, Option.none) =>
        .ok ⟨st.dumpster, keptIndices 0 mask, keptIndices 0 mask⟩

/-- Semantics of the generated `accept` body (lib.rs lines 101-116):
`TraceWith::accept(#bi, visitor)?` for each kept field in order — an
`Err` returns immediately — then `Ok(())`. `fres` gives each field's
accept result; the returned list records which fields were visited. -/
def runGenAccept (fres : Nat → Except Unit Unit) :
    List Nat → List Nat × Except Unit Unit
  | [] => ([], Except.ok ())
  | i :: rest =>
    match fres i with
    | .error e => ([i], .error e)
    | .ok _ =>
      match runGenAccept fres rest with
      | (vs, r) => (i :: vs, r)

/-- A `trace(...)` argument the parser accepts without error: the bare
path `ignore`. -/
def goodTraceArg : NestedMeta → Bool
  | .path n => decide (n = "ignore")
  | _ => false

/-- A container `#[dumpster(...)]` item the parser accepts without
error: `crate = path`, or `trace(...)` with only accepted arguments. -/
def goodContainerItem : NestedMeta → Bool
  | .nameValue n _ => decide (n = "crate")
  | .list n args => decide (n = "trace") && args.all goodTraceArg
  | .path _ => false

/-- A field `#[dumpster(...)]` item the parser accepts without error:
`trace(...)` with only accepted arguments. -/
def goodFieldItem : NestedMeta → Bool
  | .list n args => decide (n = "trace") && args.all goodTraceArg
  | _ => false

/-- C1: for every `OptGc` handle `a`, `ptr_eq(a, a.clone())` is true whether
`a` is some or none; `ptr_eq` is false for two handles built by independent
constructions (which allocate at distinct fresh addresses, whatever the
payload values); and any two none handles are `ptr_eq`-true regardless of
metadata. -/
theorem C1_ptr_eq_law :
    (∀ (strong : Heap) (x : OptGc Unit), x.ptr_eq (x.clone strong).1 = true)
    ∧ (∀ (st : AllocState),
        OptGc.ptr_eq (OptGc.some (Gc.new st ()).1)
          (OptGc.some (Gc.new (Gc.new st ()).2 ()).1) = false)
    ∧ (∀ (μ : Type) (x y : OptGc μ), x.is_none = true → y.is_none = true →
        x.ptr_eq y = true) := by
  refine ⟨?_, ?_, ?_⟩
  · intro strong x
    match x with
    | ⟨.live a m⟩ =>
      simp [OptGc.clone, Gc.try_clone, OptGc.fromOption, OptGc.ptr_eq, Gc.ptr_eq]
    | ⟨.dead m⟩ => rfl
  · intro st
    have h : st.next ≠ st.next + 1 := by omega
    simp only [Gc.new, OptGc.some, OptGc.ptr_eq, Gc.ptr_eq]
    simp only [beq_eq_false_iff_ne, ne_eq]
    omega
  · intro μ x y hx hy
    match x, y with
    | ⟨.dead m₁⟩, ⟨.dead m₂⟩ => rfl
    | ⟨.live a m₁⟩, _ => simp [OptGc.is_none, Gc.is_dead] at hx
    | ⟨.dead m₁⟩, ⟨.live b m₂⟩ => simp [OptGc.is_none, Gc.is_dead] at hy

/-- Witness for C1: two concrete none handles with different metadata are
`ptr_eq`-true. -/
theorem C1_ptr_eq_law_witness :
    OptGc.ptr_eq (OptGc.some (Gc.dead 1)) (OptGc.some (Gc.dead 2)) = true :=
  C1_ptr_eq_law.2.2 Nat (OptGc.some (Gc.dead 1)) (OptGc.some (Gc.dead 2)) rfl rfl

/-- C2: for every none `OptGc` handle, `ref_count()` returns 0; for every
some (live) handle it returns the inner allocation's current strong count. -/
theorem C2_ref_count {μ : Type} (strong : Heap) (x : OptGc μ) :
    (x.is_none = true → x.ref_count strong = 0)
    ∧ (∀ a m, x.gc = Gc.live a m → x.ref_count strong = strong a) := by
  constructor
  · intro h
    match x with
    | ⟨.dead m⟩ => rfl
    | ⟨.live a m⟩ => simp [OptGc.is_none, Gc.is_dead] at h
  · intro a m h
    match x with
    | ⟨g⟩ => cases h; rfl

/-- Witness for C2: a concrete none handle reports count 0, a concrete
live handle reports the heap's strong count at its address. -/
theorem C2_ref_count_witness :
    OptGc.ref_count (fun _ => 5) (OptGc.some (Gc.dead 0)) = 0
    ∧ OptGc.ref_count (fun _ => 5) (OptGc.some (Gc.live 3 0)) = 5 :=
  ⟨(C2_ref_count (fun _ => 5) (OptGc.some (Gc.dead 0))).1 rfl,
   (C2_ref_count (fun _ => 5) (OptGc.some (Gc.live 3 0))).2 3 0 rfl⟩

/-- C3: `TraceWith::accept` on an `OptGc` applies the visitor exactly once,
to the inner `Gc`, when the handle is some, leaves the visitor state
untouched when it is none, and returns `Ok(())` in both cases. -/
theorem C3_accept_once {μ V : Type} (visit : Gc μ → V → V) (x : OptGc μ) (v : V) :
    OptGc.accept visit x v = (Except.ok (), cond x.is_some (visit x.gc v) v) := by
  match x with
  | ⟨.live a m⟩ => rfl
  | ⟨.dead m⟩ => rfl

/-- C6: cloning a some (live) `OptGc` yields another some handle that is
`ptr_eq` to the original; cloning a none handle yields another none
handle. -/
theorem C6_clone_identity (strong : Heap) (x : OptGc Unit) :
    (∀ a m, x.gc = Gc.live a m →
      (x.clone strong).1.is_some = true ∧ x.ptr_eq (x.clone strong).1 = true)
    ∧ (x.is_none = true → (x.clone strong).1.is_none = true) := by
  constructor
  · intro a m h
    match x with
    | ⟨g⟩ =>
      cases h
      refine ⟨rfl, ?_⟩
      simp [OptGc.clone, Gc.try_clone, OptGc.fromOption, OptGc.ptr_eq, Gc.ptr_eq]
  · intro h
    match x with
    | ⟨.dead m⟩ => rfl
    | ⟨.live a m⟩ => simp [OptGc.is_none, Gc.is_dead] at h

/-- Witness for C6: cloning a concrete live handle and the `NONE` handle. -/
theorem C6_clone_identity_witness :
    ((OptGc.some (Gc.live 4 ())).clone (fun _ => 1)).1.is_some = true
    ∧ (OptGc.some (Gc.live 4 ())).ptr_eq
        ((OptGc.some (Gc.live 4 ())).clone (fun _ => 1)).1 = true
    ∧ (OptGc.NONE.clone (fun _ => 1)).1.is_none = true :=
  ⟨((C6_clone_identity (fun _ => 1) (OptGc.some (Gc.live 4 ()))).1 4 () rfl).1,
   ((C6_clone_identity (fun _ => 1) (OptGc.some (Gc.live 4 ()))).1 4 () rfl).2,
   (C6_clone_identity (fun _ => 1) OptGc.NONE).2 rfl⟩

/-- C7: `OptGc::NONE` is a none value (`is_none` true, `is_some` false) and
`default()` equals `NONE`; the constant exists only at trivial (sized)
metadata `Unit`, while an unsized none value is built from `Gc.dead` with
explicit metadata. -/
theorem C7_none_constant :
    OptGc.NONE.is_none = true ∧ OptGc.NONE.is_some = false
    ∧ OptGc.default = OptGc.NONE :=
  ⟨rfl, rfl, rfl⟩

/-- C8: wrapping a dead `Gc` with `OptGc::some` produces a none handle:
`is_some` is false and `as_ref` / `into_option` return `None`. -/
theorem C8_some_of_dead_is_none {μ : Type} (g : Gc μ) (h : g.is_dead = true) :
    (OptGc.some g).is_some = false ∧ (OptGc.some g).as_ref = Option.none
    ∧ (OptGc.some g).into_option = Option.none := by
  match g with
  | .dead m => exact ⟨rfl, rfl, rfl⟩
  | .live a m => simp [Gc.is_dead] at h

/-- Witness for C8: a concrete dead `Gc` wrapped by `some` is none. -/
theorem C8_some_of_dead_is_none_witness :
    (OptGc.some (Gc.dead 7)).is_some = false
    ∧ (OptGc.some (Gc.dead 7)).as_ref = Option.none
    ∧ (OptGc.some (Gc.dead 7)).into_option = Option.none :=
  C8_some_of_dead_is_none (Gc.dead 7) rfl

/-- C9: `into_maybe_dead_gc` and `from_maybe_dead_gc` are mutually inverse
on every handle (some or none, any metadata type), preserving the handle
— hence its metadata — exactly; neither touches any reference count. -/
theorem C9_maybe_dead_round_trip {μ : Type} :
    (∀ x : OptGc μ, OptGc.from_maybe_dead_gc (OptGc.into_maybe_dead_gc x) = x)
    ∧ (∀ g : Gc μ, OptGc.into_maybe_dead_gc (OptGc.from_maybe_dead_gc g) = g) :=
  ⟨fun _ => rfl, fun _ => rfl⟩

/-- A field without attributes is kept and adds no error. -/
theorem filterFields_replicate_clean (n : Nat) (err : Option String)
    (rest : List StructField) :
    filterFields err (List.replicate n ⟨[]⟩ ++ rest)
      = (List.replicate n true ++ (filterFields err rest).1,
         (filterFields err rest).2) := by
  induction n with
  | zero => simp [List.replicate]
  | succ k ih => simp [List.replicate, filterFields, parseFieldAttrs, ih]

/-- Kept indices across a run of `true` mask entries. -/
theorem keptIndices_replicate_true :
    ∀ (n i : Nat) (l : List Bool),
      keptIndices i (List.replicate n true ++ l)
        = List.range' i n ++ keptIndices (i + n) l
  | 0, i, l => by simp [List.replicate, keptIndices]
  | n + 1, i, l => by
    have h : i + 1 + n = i + (n + 1) := by omega
    simp [List.replicate, keptIndices, List.range'_succ,
      keptIndices_replicate_true n (i + 1) l, h]

/-- Kept indices of an all-`true` mask. -/
theorem keptIndices_replicate_true_nil (n i : Nat) :
    keptIndices i (List.replicate n true) = List.range' i n := by
  have h := keptIndices_replicate_true n i []
  simpa [keptIndices] using h

/-- C4: both opt-outs of the `Trace` derive work. With a container-level
`#[dumpster(trace(ignore))]` the generated `accept` visits no fields and
no bounds are added, whatever the fields are; with a per-field
`#[dumpster(trace(ignore))]` that field is skipped by the generated
`accept` and contributes no bound, while every other field is still
visited and bounded. -/
theorem C4_derive_opt_outs :
    (∀ fs : List StructField,
      derive_trace ⟨[⟨"dumpster", [.list "trace" [.path "ignore"]]⟩], fs⟩
        = .ok ⟨"::dumpster", [], []⟩)
    ∧ (∀ n k : Nat,
      derive_trace
          ⟨[], List.replicate n ⟨[]⟩
              ++ (⟨[⟨"dumpster", [.list "trace" [.path "ignore"]]⟩]⟩ : StructField)
              :: List.replicate k ⟨[]⟩⟩
        = .ok ⟨"::dumpster", List.range' 0 n ++ List.range' (n + 1) k,
            List.range' 0 n ++ List.range' (n + 1) k⟩) := by
  constructor
  · intro fs
    rfl
  · intro n k
    have hig : parseFieldAttrs false Option.none
        [⟨"dumpster", [NestedMeta.list "trace" [NestedMeta.path "ignore"]]⟩]
        = (true, Option.none) := rfl
    have h1 : filterFields Option.none (List.replicate k (⟨[]⟩ : StructField))
        = (List.replicate k true, Option.none) := by
      have h := filterFields_replicate_clean k Option.none []
      simpa [filterFields] using h
    have h2 : filterFields Option.none
        ((⟨[⟨"dumpster", [.list "trace" [.path "ignore"]]⟩]⟩ : StructField)
          :: List.replicate k ⟨[]⟩)
        = (false :: List.replicate k true, Option.none) := by
      simp [filterFields, hig, h1]
    have hfil : filterFields Option.none
        (List.replicate n (⟨[]⟩ : StructField)
          ++ (⟨[⟨"dumpster", [.list "trace" [.path "ignore"]]⟩]⟩ : StructField)
          :: List.replicate k ⟨[]⟩)
        = (List.replicate n true ++ false :: List.replicate k true,
           Option.none) := by
      rw [filterFields_replicate_clean, h2]
    have hkept : keptIndices 0
        (List.replicate n true ++ false :: List.replicate k true)
        = List.range' 0 n ++ List.range' (n + 1) k := by
      rw [keptIndices_replicate_true n 0 (false :: List.replicate k true)]
      simp [keptIndices, keptIndices_replicate_true_nil]
    simp [derive_trace, parseContainerAttrs, hfil, hkept]

/-- The generated body succeeds and visits every field when all field
accepts succeed. -/
theorem runGenAccept_all_ok (fres : Nat → Except Unit Unit) :
    ∀ l : List Nat, (∀ i ∈ l, fres i = .ok ()) →
      runGenAccept fres l = (l, Except.ok ())
  | [], _ => rfl
  | i :: rest, h => by
    have hi : fres i = .ok () := h i (List.mem_cons_self i rest)
    have hr := runGenAccept_all_ok fres rest
      (fun j hj => h j (List.mem_cons_of_mem i hj))
    simp [runGenAccept, hi, hr]

/-- The generated body stops at the first failing field and returns its
error. -/
theorem runGenAccept_first_error (fres : Nat → Except Unit Unit) :
    ∀ (l₁ : List Nat) (j : Nat) (l₂ : List Nat),
      (∀ i ∈ l₁, fres i = .ok ()) → fres j = .error () →
      runGenAccept fres (l₁ ++ j :: l₂) = (l₁ ++ [j], Except.error ())
  | [], j, l₂, _, hj => by simp [runGenAccept, hj]
  | i :: rest, j, l₂, h, hj => by
    have hi : fres i = .ok () := h i (List.mem_cons_self i rest)
    have hr := runGenAccept_first_error fres rest j l₂
      (fun a ha => h a (List.mem_cons_of_mem i ha)) hj
    simp [runGenAccept, hi, hr]

/-- The mask produced by the field filter has one entry per field. -/
theorem filterFields_length :
    ∀ (fs : List StructField) (err : Option String),
      (filterFields err fs).1.length = fs.length
  | [], _ => rfl
  | f :: rest, err => by
    rcases hf : parseFieldAttrs false err f.attrs with ⟨ign, err'⟩
    simp [filterFields, hf, filterFields_length rest err']

/-- The kept indices of a mask form a sublist of the index range, hence
are in declaration order and within bounds. -/
theorem keptIndices_sublist :
    ∀ (mask : List Bool) (i : Nat),
      List.Sublist (keptIndices i mask) (List.range' i mask.length)
  | [], i => by simp [keptIndices]
  | b :: rest, i => by
    cases b with
    | true =>
      simp only [keptIndices, List.length_cons, List.range'_succ, if_true]
      exact List.Sublist.cons₂ i (keptIndices_sublist rest (i + 1))
    | false =>
      simp only [keptIndices, List.length_cons, List.range'_succ,
        Bool.false_eq_true, if_false]
      exact List.Sublist.cons i (keptIndices_sublist rest (i + 1))

/-- C5: for a successful derive, the generated `accept` visits the
non-ignored fields as a sublist of the declaration order `0, 1, ...`;
running it returns `Ok(())` after visiting every such field when all
succeed, and stops at the first field whose accept fails, returning that
error without visiting the remaining fields. -/
theorem C5_generated_accept (s : DeriveInput) (gi : GenImpl)
    (h : derive_trace s = .ok gi) :
    List.Sublist gi.bodyFields (List.range' 0 s.fields.length)
    ∧ ∀ fres : Nat → Except Unit Unit,
      ((∀ i ∈ gi.bodyFields, fres i = Except.ok ()) →
        runGenAccept fres gi.bodyFields = (gi.bodyFields, Except.ok ()))
      ∧ (∀ (l₁ : List Nat) (j : Nat) (l₂ : List Nat),
          gi.bodyFields = l₁ ++ j :: l₂ →
          (∀ i ∈ l₁, fres i = Except.ok ()) → fres j = Except.error () →
          runGenAccept fres gi.bodyFields = (l₁ ++ [j], Except.error ())) := by
  constructor
  · rcases hc : parseContainerAttrs ⟨"::dumpster", false⟩ s.attrs with e | st
    · rw [derive_trace, hc] at h
      exact absurd h (by simp)
    · rw [derive_trace, hc] at h
      dsimp only at h
      by_cases hig : st.traceIgnoreContainer
      · rw [if_pos hig] at h
        cases h
        simp
      · rw [if_neg hig] at h
        rcases hf : filterFields Option.none s.fields with ⟨mask, err⟩
        rw [hf] at h
        cases err with
        | some e => exact absurd h (by simp)
        | none =>
          cases h
          have hlen : mask.length = s.fields.length := by
            have := filterFields_length s.fields Option.none
            rw [hf] at this
            exact this
          simpa [hlen] using keptIndices_sublist mask 0
  · intro fres
    refine ⟨runGenAccept_all_ok fres gi.bodyFields, ?_⟩
    intro l₁ j l₂ hb h1 hj
    rw [hb]
    exact runGenAccept_first_error fres l₁ j l₂ h1 hj

/-- Witness for C5: a two-field derive where the first field succeeds
and the second fails stops after the second field with its error. -/
theorem C5_generated_accept_witness :
    runGenAccept (fun i => if i = 0 then Except.ok () else Except.error ()) [0, 1]
      = ([0, 1], Except.error ()) := by
  have h := C5_generated_accept ⟨[], [⟨[]⟩, ⟨[]⟩]⟩ ⟨"::dumpster", [0, 1], [0, 1]⟩ rfl
  exact (h.2 (fun i => if i = 0 then Except.ok () else Except.error ())).2 [0] 1 []
    rfl (by intro i hi; simp at hi; subst hi; rfl) rfl

/-- A list with no offending element is all-good. -/
theorem all_of_not_any_not {α : Type} (p : α → Bool) (l : List α)
    (h : l.any (fun x => !p x) = false) : l.all p = true := by
  rw [List.all_eq_true]
  intro x hx
  cases hp : p x with
  | true => rfl
  | false =>
    have ht : l.any (fun x => !p x) = true :=
      List.any_eq_true.mpr ⟨x, hx, by simp [hp]⟩
    rw [ht] at h
    simp at h

/-- Good `trace(...)` arguments parse without error. -/
theorem parseTraceArgs_ok_of_good (msg : String) :
    ∀ (args : List NestedMeta) (ign : Bool),
      args.all goodTraceArg = true →
      (parseTraceArgs msg ign args).2 = Option.none
  | [], _, _ => rfl
  | item :: rest, ign, h => by
    match item with
    | .path n =>
      rw [List.all_cons, Bool.and_eq_true] at h
      have hn : n = "ignore" := by simpa [goodTraceArg] using h.1
      subst hn
      simp [parseTraceArgs, NestedMeta.name]
      exact parseTraceArgs_ok_of_good msg rest true h.2
    | .nameValue n v => simp [goodTraceArg] at h
    | .list n as => simp [goodTraceArg] at h

/-- A bad `trace(...)` argument makes the argument parse error. -/
theorem parseTraceArgs_error_of_bad (msg : String) :
    ∀ (args : List NestedMeta) (ign : Bool),
      args.any (fun it => !goodTraceArg it) = true →
      (parseTraceArgs msg ign args).2.isSome = true
  | [], _, h => by simp at h
  | item :: rest, ign, h => by
    by_cases hn : item.name = "ignore"
    · match item with
      | .path n =>
        have hg : goodTraceArg (.path n) = true := by
          simp only [NestedMeta.name] at hn
          simp [goodTraceArg, hn]
        rw [List.any_cons, hg] at h
        simp only [Bool.not_true, Bool.false_or] at h
        simp [parseTraceArgs, hn]
        exact parseTraceArgs_error_of_bad msg rest true h
      | .nameValue n v => simp [parseTraceArgs, hn]
      | .list n as => simp [parseTraceArgs, hn]
    · simp [parseTraceArgs, hn]

/-- Good container items parse without error. -/
theorem parseContainerItems_ok_of_good :
    ∀ (items : List NestedMeta) (st : ContainerState),
      items.all goodContainerItem = true →
      (parseContainerItems st items).2 = Option.none
  | [], _, _ => rfl
  | item :: rest, st, h => by
    rw [List.all_cons, Bool.and_eq_true] at h
    match item with
    | .path n => simp [goodContainerItem] at h
    | .nameValue n v =>
      have hn : n = "crate" := by simpa [goodContainerItem] using h.1
      subst hn
      simp [parseContainerItems, NestedMeta.name]
      exact parseContainerItems_ok_of_good rest _ h.2
    | .list n as =>
      have hn : n = "trace" := by
        have := h.1
        simp only [goodContainerItem, Bool.and_eq_true, decide_eq_true_eq] at this
        exact this.1
      have has : as.all goodTraceArg = true := by
        have := h.1
        simp only [goodContainerItem, Bool.and_eq_true] at this
        exact this.2
      subst hn
      rcases hp : parseTraceArgs "unsupported trace attribute" st.traceIgnoreContainer as
        with ⟨ign, err⟩
      have he : err = Option.none := by
        have := parseTraceArgs_ok_of_good "unsupported trace attribute" as
          st.traceIgnoreContainer has
        rw [hp] at this
        exact this
      subst he
      simp [parseContainerItems, NestedMeta.name, hp]
      exact parseContainerItems_ok_of_good rest _ h.2

/-- A bad container item makes the container attribute parse error. -/
theorem parseContainerItems_error_of_bad :
    ∀ (items : List NestedMeta) (st : ContainerState),
      items.any (fun it => !goodContainerItem it) = true →
      (parseContainerItems st items).2.isSome = true
  | [], _, h => by simp at h
  | item :: rest, st, h => by
    by_cases hc : item.name = "crate"
    · match item with
      | .nameValue n v =>
        have hg : goodContainerItem (.nameValue n v) = true := by
          simp only [NestedMeta.name] at hc
          simp [goodContainerItem, hc]
        rw [List.any_cons, hg] at h
        simp only [Bool.not_true, Bool.false_or] at h
        simp [parseContainerItems, hc]
        exact parseContainerItems_error_of_bad rest _ h
      | .path n => simp [parseContainerItems, hc]
      | .list n as => simp [parseContainerItems, hc]
    · by_cases ht : item.name = "trace"
      · match item with
        | .list n as =>
          by_cases hb : as.any (fun it => !goodTraceArg it) = true
          · have := parseTraceArgs_error_of_bad "unsupported trace attribute"
              as st.traceIgnoreContainer hb
            rcases hp : parseTraceArgs "unsupported trace attribute"
                st.traceIgnoreContainer as with ⟨ign, err⟩
            rw [hp] at this
            rcases err with _ | e
            · simp at this
            · simp [parseContainerItems, hc, ht, hp]
          · have has : as.all goodTraceArg = true :=
              all_of_not_any_not _ _ (by simpa using hb)
            have hg : goodContainerItem (.list n as) = true := by
              simp only [NestedMeta.name] at ht
              simp [goodContainerItem, ht, has]
            rw [List.any_cons, hg] at h
            simp only [Bool.not_true, Bool.false_or] at h
            rcases hp : parseTraceArgs "unsupported trace attribute"
                st.traceIgnoreContainer as with ⟨ign, err⟩
            have he : err = Option.none := by
              have := parseTraceArgs_ok_of_good "unsupported trace attribute" as
                st.traceIgnoreContainer has
              rw [hp] at this
              exact this
            subst he
            simp [parseContainerItems, hc, ht, hp]
            exact parseContainerItems_error_of_bad rest _ h
        | .path n => simp [parseContainerItems, hc, ht]
        | .nameValue n v => simp [parseContainerItems, hc, ht]
      · simp [parseContainerItems, hc, ht]

/-- A bad item in any container `#[dumpster(...)]` attribute makes the
container loop return an error. -/
theorem parseContainerAttrs_error_of_bad :
    ∀ (attrs : List Attr) (st : ContainerState),
      attrs.any (fun a => decide (a.path = "dumpster")
        && a.args.any (fun it => !goodContainerItem it)) = true →
      ∃ e, parseContainerAttrs st attrs = .error e
  | [], _, h => by simp at h
  | a :: rest, st, h => by
    by_cases hp : a.path = "dumpster"
    · by_cases hb : a.args.any (fun it => !goodContainerItem it) = true
      · have := parseContainerItems_error_of_bad a.args st hb
        rcases hi : parseContainerItems st a.args with ⟨st', err⟩
        rw [hi] at this
        rcases err with _ | e
        · simp at this
        · exact ⟨e, by simp [parseContainerAttrs, hp, hi]⟩
      · have hgood : a.args.all goodContainerItem = true :=
          all_of_not_any_not _ _ (by simpa using hb)
        rw [List.any_cons] at h
        have hba : (decide (a.path = "dumpster")
            && a.args.any (fun it => !goodContainerItem it)) = false := by
          simp [hb]
        rw [hba, Bool.false_or] at h
        rcases hi : parseContainerItems st a.args with ⟨st', err⟩
        have he : err = Option.none := by
          have := parseContainerItems_ok_of_good a.args st hgood
          rw [hi] at this
          exact this
        subst he
        have ⟨e, hrest⟩ := parseContainerAttrs_error_of_bad rest st' h
        exact ⟨e, by simp [parseContainerAttrs, hp, hi, hrest]⟩
    · rw [List.any_cons] at h
      have hba : (decide (a.path = "dumpster")
          && a.args.any (fun it => !goodContainerItem it)) = false := by
        simp [hp]
      rw [hba, Bool.false_or] at h
      have ⟨e, hrest⟩ := parseContainerAttrs_error_of_bad rest st h
      exact ⟨e, by simp [parseContainerAttrs, hp, hrest]⟩

/-- Good field items parse without error. -/
theorem parseFieldItems_ok_of_good :
    ∀ (items : List NestedMeta) (ign : Bool),
      items.all goodFieldItem = true →
      (parseFieldItems ign items).2 = Option.none
  | [], _, _ => rfl
  | item :: rest, ign, h => by
    rw [List.all_cons, Bool.and_eq_true] at h
    match item with
    | .path n => simp [goodFieldItem] at h
    | .nameValue n v => simp [goodFieldItem] at h
    | .list n as =>
      have hn : n = "trace" := by
        have := h.1
        simp only [goodFieldItem, Bool.and_eq_true, decide_eq_true_eq] at this
        exact this.1
      have has : as.all goodTraceArg = true := by
        have := h.1
        simp only [goodFieldItem, Bool.and_eq_true] at this
        exact this.2
      subst hn
      rcases hp : parseTraceArgs "unsupported trace attribute argument" ign as
        with ⟨ign', err⟩
      have he : err = Option.none := by
        have := parseTraceArgs_ok_of_good "unsupported trace attribute argument" as ign has
        rw [hp] at this
        exact this
      subst he
      simp [parseFieldItems, NestedMeta.name, hp]
      exact parseFieldItems_ok_of_good rest _ h.2

/-- A bad field item makes the field attribute parse error. -/
theorem parseFieldItems_error_of_bad :
    ∀ (items : List NestedMeta) (ign : Bool),
      items.any (fun it => !goodFieldItem it) = true →
      (parseFieldItems ign items).2.isSome = true
  | [], _, h => by simp at h
  | item :: rest, ign, h => by
    by_cases ht : item.name = "trace"
    · match item with
      | .list n as =>
        by_cases hb : as.any (fun it => !goodTraceArg it) = true
        · have := parseTraceArgs_error_of_bad "unsupported trace attribute argument"
            as ign hb
          rcases hp : parseTraceArgs "unsupported trace attribute argument" ign as
            with ⟨ign', err⟩
          rw [hp] at this
          rcases err with _ | e
          · simp at this
          · simp [parseFieldItems, ht, hp]
        · have has : as.all goodTraceArg = true :=
            all_of_not_any_not _ _ (by simpa using hb)
          have hg : goodFieldItem (.list n as) = true := by
            simp only [NestedMeta.name] at ht
            simp [goodFieldItem, ht, has]
          rw [List.any_cons, hg] at h
          simp only [Bool.not_true, Bool.false_or] at h
          rcases hp : parseTraceArgs "unsupported trace attribute argument" ign as
            with ⟨ign', err⟩
          have he : err = Option.none := by
            have := parseTraceArgs_ok_of_good "unsupported trace attribute argument"
              as ign has
            rw [hp] at this
            exact this
          subst he
          simp [parseFieldItems, ht, hp]
          exact parseFieldItems_error_of_bad rest _ h
      | .path n => simp [parseFieldItems, ht]
      | .nameValue n v => simp [parseFieldItems, ht]
    · simp [parseFieldItems, ht]

/-- Once the shared error slot is filled, later attributes never replace
it (`get_or_insert` keeps the first error). -/
theorem parseFieldAttrs_some (e : String) :
    ∀ (attrs : List Attr) (ign : Bool),
      (parseFieldAttrs ign (Option.some e) attrs).2 = Option.some e
  | [], _ => rfl
  | a :: rest, ign => by
    by_cases hp : a.path = "dumpster"
    · rcases hi : parseFieldItems ign a.args with ⟨ign', err⟩
      cases err with
      | none => simp [parseFieldAttrs, hp, hi, parseFieldAttrs_some e rest ign']
      | some e' =>
        simp [parseFieldAttrs, hp, hi, orFirst, parseFieldAttrs_some e rest ign']
    · simp [parseFieldAttrs, hp, parseFieldAttrs_some e rest ign]

/-- A bad item in any `#[dumpster(...)]` attribute of a field leaves the
error slot filled. -/
theorem parseFieldAttrs_error_of_bad :
    ∀ (attrs : List Attr) (ign : Bool) (err : Option String),
      attrs.any (fun a => decide (a.path = "dumpster")
        && a.args.any (fun it => !goodFieldItem it)) = true →
      (parseFieldAttrs ign err attrs).2.isSome = true
  | [], _, _, h => by simp at h
  | a :: rest, ign, err, h => by
    by_cases hp : a.path = "dumpster"
    · by_cases hb : a.args.any (fun it => !goodFieldItem it) = true
      · have := parseFieldItems_error_of_bad a.args ign hb
        rcases hi : parseFieldItems ign a.args with ⟨ign', e'⟩
        rw [hi] at this
        rcases e' with _ | e'
        · simp at this
        · rcases err with _ | e₀
          · simp [parseFieldAttrs, hp, hi, orFirst, parseFieldAttrs_some e' rest ign']
          · simp [parseFieldAttrs, hp, hi, orFirst, parseFieldAttrs_some e₀ rest ign']
      · have hgood : a.args.all goodFieldItem = true :=
          all_of_not_any_not _ _ (by simpa using hb)
        rw [List.any_cons] at h
        have hba : (decide (a.path = "dumpster")
            && a.args.any (fun it => !goodFieldItem it)) = false := by
          simp [hb]
        rw [hba, Bool.false_or] at h
        rcases hi : parseFieldItems ign a.args with ⟨ign', e'⟩
        have he : e' = Option.none := by
          have := parseFieldItems_ok_of_good a.args ign hgood
          rw [hi] at this
          exact this
        subst he
        simp [parseFieldAttrs, hp, hi]
        exact parseFieldAttrs_error_of_bad rest ign' err h
    · rw [List.any_cons] at h
      have hba : (decide (a.path = "dumpster")
          && a.args.any (fun it => !goodFieldItem it)) = false := by
        simp [hp]
      rw [hba, Bool.false_or] at h
      simp [parseFieldAttrs, hp]
      exact parseFieldAttrs_error_of_bad rest ign err h

/-- A filled error slot survives filtering the remaining fields. -/
theorem filterFields_some (e : String) :
    ∀ fs : List StructField, (filterFields (Option.some e) fs).2 = Option.some e
  | [] => rfl
  | f :: rest => by
    rcases hf : parseFieldAttrs false (Option.some e) f.attrs with ⟨ign, err⟩
    have he : err = Option.some e := by
      have := parseFieldAttrs_some e f.attrs false
      rw [hf] at this
      exact this
    subst he
    simp [filterFields, hf, filterFields_some e rest]

/-- A bad field attribute anywhere leaves the filter with an error. -/
theorem filterFields_error_of_bad :
    ∀ (fs : List StructField) (err : Option String),
      fs.any (fun f => f.attrs.any (fun a => decide (a.path = "dumpster")
        && a.args.any (fun it => !goodFieldItem it))) = true →
      (filterFields err fs).2.isSome = true
  | [], _, h => by simp at h
  | f :: rest, err, h => by
    rcases hf : parseFieldAttrs false err f.attrs with ⟨ign, err'⟩
    by_cases hb : f.attrs.any (fun a => decide (a.path = "dumpster")
        && a.args.any (fun it => !goodFieldItem it)) = true
    · have hsome : err'.isSome = true := by
        have := parseFieldAttrs_error_of_bad f.attrs false err hb
        rw [hf] at this
        exact this
      rcases err' with _ | e'
      · simp at hsome
      · simp [filterFields, hf, filterFields_some e' rest]
    · rw [List.any_cons] at h
      have hbf : f.attrs.any (fun a => decide (a.path = "dumpster")
          && a.args.any (fun it => !goodFieldItem it)) = false := by
        simp [hb]
      rw [hbf, Bool.false_or] at h
      simp [filterFields, hf]
      exact filterFields_error_of_bad rest err' h

/-- Fields whose attributes parse cleanly neither fill the error slot nor
stop the filter. -/
theorem filterFields_clean_append :
    ∀ (pre rest : List StructField),
      (∀ g ∈ pre, (parseFieldAttrs false Option.none g.attrs).2 = Option.none) →
      (filterFields Option.none (pre ++ rest)).2
        = (filterFields Option.none rest).2
  | [], _, _ => rfl
  | g :: pre', rest, h => by
    rcases hg : parseFieldAttrs false Option.none g.attrs with ⟨ign, err⟩
    have he : err = Option.none := by
      have := h g (List.mem_cons_self g pre')
      rw [hg] at this
      exact this
    subst he
    simp [filterFields, hg]
    exact filterFields_clean_append pre' rest
      (fun a ha => h a (List.mem_cons_of_mem g ha))

/-- Counterexample to C10 as stated: with a container-level
`trace(ignore)` attribute the field filter never runs, so a field
`#[dumpster(...)]` attribute containing an unsupported item (here the
bare path `bogus`) is silently ignored and the derive succeeds instead
of returning an error. -/
theorem C10_counterexample :
    derive_trace
        ⟨[⟨"dumpster", [NestedMeta.list "trace" [NestedMeta.path "ignore"]]⟩],
         [⟨[⟨"dumpster", [NestedMeta.path "bogus"]⟩]⟩]⟩
      = .ok ⟨"::dumpster", [], []⟩ := rfl

/-- C10 (amended): `derive_trace` returns `Err` whenever a container
`#[dumpster(...)]` attribute contains anything other than
`crate = path` or `trace(ignore)`; and — provided the container parse
succeeded without container-level `trace(ignore)`, since otherwise field
attributes are never parsed — whenever a field `#[dumpster(...)]`
attribute contains anything other than `trace(ignore)`; in that case the
error of the first offending field (in declaration order) is the one
returned, whatever errors later fields would add, after filtering
completes. -/
theorem C10_attr_errors :
    (∀ s : DeriveInput,
      s.attrs.any (fun a => decide (a.path = "dumpster")
        && a.args.any (fun it => !goodContainerItem it)) = true →
      ∃ e, derive_trace s = .error e)
    ∧ (∀ (s : DeriveInput) (st : ContainerState),
      parseContainerAttrs ⟨"::dumpster", false⟩ s.attrs = .ok st →
      st.traceIgnoreContainer = false →
      s.fields.any (fun f => f.attrs.any (fun a => decide (a.path = "dumpster")
        && a.args.any (fun it => !goodFieldItem it))) = true →
      ∃ e, derive_trace s = .error e)
    ∧ (∀ (s : DeriveInput) (st : ContainerState) (pre : List StructField)
        (f : StructField) (post : List StructField) (e : String),
      parseContainerAttrs ⟨"::dumpster", false⟩ s.attrs = .ok st →
      st.traceIgnoreContainer = false →
      s.fields = pre ++ f :: post →
      (∀ g ∈ pre, (parseFieldAttrs false Option.none g.attrs).2 = Option.none) →
      (parseFieldAttrs false Option.none f.attrs).2 = Option.some e →
      derive_trace s = .error e) := by
  refine ⟨?_, ?_, ?_⟩
  · intro s h
    obtain ⟨e, he⟩ := parseContainerAttrs_error_of_bad s.attrs ⟨"::dumpster", false⟩ h
    exact ⟨e, by simp [derive_trace, he]⟩
  · intro s st hc hig h
    have hsome := filterFields_error_of_bad s.fields Option.none h
    rcases hf : filterFields Option.none s.fields with ⟨mask, err⟩
    rw [hf] at hsome
    rcases err with _ | e
    · simp at hsome
    · exact ⟨e, by simp [derive_trace, hc, hig, hf]⟩
  · intro s st pre f post e hc hig hsf hpre hf
    have herr : (filterFields Option.none s.fields).2 = Option.some e := by
      rw [hsf, filterFields_clean_append pre (f :: post) hpre]
      rcases hpf : parseFieldAttrs false Option.none f.attrs with ⟨ignf, errf⟩
      have hef : errf = Option.some e := by
        rw [hpf] at hf
        exact hf
      subst hef
      simp [filterFields, hpf, filterFields_some e post]
    rcases hfil : filterFields Option.none s.fields with ⟨mask, err⟩
    rw [hfil] at herr
    have herr' : err = Option.some e := herr
    subst herr'
    simp [derive_trace, hc, hig, hfil]

/-- Witness for C10 (amended): a single field whose attribute holds the
unsupported bare path `bogus` makes the derive fail with the field
closure's error. -/
theorem C10_attr_errors_witness :
    derive_trace ⟨[], [⟨[⟨"dumpster", [NestedMeta.path "bogus"]⟩]⟩]⟩
      = .error "unsupported attribute" :=
  C10_attr_errors.2.2 ⟨[], [⟨[⟨"dumpster", [NestedMeta.path "bogus"]⟩]⟩]⟩
    ⟨"::dumpster", false⟩ [] ⟨[⟨"dumpster", [NestedMeta.path "bogus"]⟩]⟩ []
    "unsupported attribute" rfl rfl rfl
    (fun g hg => absurd hg (List.not_mem_nil g)) rfl

end Dumpster
